import Mathlib

/-!
Shallow embedding of the seen-item tracking and new-item detection engine of
the resale-radar monitor (src/base_scraper.py, src/main.py), together with
theorems settling the spec claims about it.

Modelling conventions:
* A Python item dict is embedded as an `Item` record.  `get_item_id` is the
  site adapter's id resolver; an unresolvable id is the empty string (falsy in
  Python), and an unresolvable price is `0` (the default of
  `item.get('price', 0)` in `BaseScraper.get_price`).
* A Python `set` of id strings is a `Finset String`; the per-keyword history
  dict is an association list `List (String × Finset String)`.
* The outbound delivery performed inside `BaseScraper.notify` is modelled by a
  function `deliver : Item → Bool` (success / failure); `notify` itself
  swallows every delivery exception, so the run loop observes only this
  boolean, which it ignores.
* External fallible calls (`search`) are `Except String (List Item)`: an
  `error` value stands for the exception caught by the per-keyword handler in
  `BaseScraper.run`.
-/

namespace ResaleRadar

/-- Item record: normalized listing, as produced by the site adapter.
Fields mirror the dict keys used by `base_scraper.py`: `id` (empty when
unresolvable), `title`, `price` (0 when unknown), `url`. -/
structure Item where
  id : String
  title : String
  price : Nat
  url : String
deriving DecidableEq

/-- `BaseScraper.get_item_id` (abstract; the resolved unique id, with the
empty string standing for an unresolvable id, which is falsy in Python). -/
def get_item_id (item : Item) : String := item.id

/-- `BaseScraper.get_price`: `item.get('price', 0)`. -/
def get_price (item : Item) : Nat := item.price

/-- The condition of the loop body of `BaseScraper.filter_new_items`:
`if item_id and item_id not in seen_items:` then
`if price and price >= self.min_price:`.  Python truthiness of a string is
non-emptiness and of an int is non-zeroness; `&&` mirrors the short-circuit
nesting of the two `if`s. -/
def newItemCond (min_price : Nat) (seen : Finset String) (item : Item) : Bool :=
  (decide (get_item_id item ≠ "") && decide (get_item_id item ∉ seen)) &&
    (decide (get_price item ≠ 0) && decide (min_price ≤ get_price item))

/-- `BaseScraper.filter_new_items`: the Python loop appends `item` to
`new_items` exactly when `newItemCond` holds, preserving input order, and
performs no mutation of `seen_items`; this is `List.filter`. -/
def filter_new_items (min_price : Nat) (items : List Item) (seen : Finset String) :
    List Item :=
  items.filter (fun item => newItemCond min_price seen item)

/-- The id-recording loop shared by the bootstrap branch and the incremental
branch of `BaseScraper.run`:
`item_id = self.get_item_id(item); if item_id: seen_items.add(item_id)`,
folded over the given list. -/
def addIds (seen : Finset String) (items : List Item) : Finset String :=
  items.foldl
    (fun s item => if get_item_id item ≠ "" then insert (get_item_id item) s else s)
    seen

/-- The resolvable (non-empty) ids of a list of items, in order. -/
def resolvedIds (items : List Item) : List String :=
  items.filterMap
    (fun item => if get_item_id item ≠ "" then some (get_item_id item) else none)

/-- Result of processing one keyword in one pass of `BaseScraper.run`:
the items handed to `notify` paired with the delivery outcome (in order), and
the keyword's seen-set after the pass. -/
structure PassResult where
  notified : List (Item × Bool)
  seenAfter : Finset String
deriving DecidableEq

/-- One keyword's processing inside `BaseScraper.run`, after `search`
succeeded with `items`.  `if not seen_items:` (bootstrap) records every
resolvable id and notifies nothing; otherwise (incremental) it filters the new
items, notifies each in order, and records each notified item's id right after
the notify attempt, ignoring the delivery outcome (`notify` catches all
delivery errors internally). -/
def runKeyword (deliver : Item → Bool) (min_price : Nat) (items : List Item)
    (seen : Finset String) : PassResult :=
  if seen = ∅ then
    ⟨[], addIds seen items⟩
  else
    let new_items := filter_new_items min_price items seen
    ⟨new_items.map (fun item => (item, deliver item)), addIds seen new_items⟩

/-- A sequence of monitoring passes for one keyword, threading the seen-set
from each pass to the next (the persisted store round-tripping correctly means
exactly this threading, within one lifetime or across a reload).  Returns the
per-pass notified lists and the final seen-set. -/
def runPasses (deliver : Item → Bool) (min_price : Nat) :
    List (List Item) → Finset String → List (List (Item × Bool)) × Finset String
  | [], seen => ([], seen)
  | items :: rest, seen =>
    let r := runKeyword deliver min_price items seen
    let next := runPasses deliver min_price rest r.seenAfter
    (r.notified :: next.1, next.2)

/-- The per-keyword loop of `BaseScraper.run` over a list of keywords, with
the store modelled as a total map keyword → seen-set (absent = empty set,
matching `_get_seen_items_for_keyword`).  `search` failing raises; the
`except` clause logs and `continue`s, leaving the store untouched for that
keyword and producing no notifications for it. -/
def runSource (search : String → Except String (List Item)) (deliver : Item → Bool)
    (min_price : Nat) :
    List String → (String → Finset String) →
      List (String × List (Item × Bool)) × (String → Finset String)
  | [], store => ([], store)
  | kw :: rest, store =>
    match search kw with
    | Except.error _ => runSource search deliver min_price rest store
    | Except.ok items =>
      let r := runKeyword deliver min_price items (store kw)
      let next := runSource search deliver min_price rest
        (fun k => if k = kw then r.seenAfter else store k)
      ((kw, r.notified) :: next.1, next.2)

/-- The three shapes the on-disk history file can be in when
`BaseScraper._load_seen_items` reads it: absent, unreadable or unparsable
(any exception from `open`/`json.load`/the set comprehension), or a
well-formed keyword → id-list mapping. -/
inductive HistoryFile where
  | missing : HistoryFile
  | corrupt : HistoryFile
  | wellFormed : List (String × List String) → HistoryFile

/-- `BaseScraper._load_seen_items`: `{}` when the file does not exist, `{}`
(logged) on any read/parse failure, otherwise `{k: set(v) for k, v in
data.items()}`. -/
def loadSeenItems : HistoryFile → List (String × Finset String)
  | HistoryFile.missing => []
  | HistoryFile.corrupt => []
  | HistoryFile.wellFormed data => data.map (fun kv => (kv.1, kv.2.toFinset))

/-- `BaseScraper._get_seen_items_for_keyword`: return the keyword's set,
creating (and remembering) an empty one on first access. -/
def getSeenForKeyword (m : List (String × Finset String)) (kw : String) :
    Finset String × List (String × Finset String) :=
  match m.lookup kw with
  | some s => (s, m)
  | none => (∅, m ++ [(kw, ∅)])

/-- A primitive file-system operation performed by `_save_seen_items` on the
history file. -/
inductive FsOp where
  | truncate : FsOp
  | write : String → FsOp
deriving DecidableEq

/-- Effect of one operation on the file contents (`none` = file absent). -/
def applyFsOp (file : Option String) : FsOp → Option String
  | FsOp.truncate => some ""
  | FsOp.write s => some (file.getD "" ++ s)

/-- The operations `BaseScraper._save_seen_items` performs on the history
file, given the serialized JSON text: `open(self._history_file, "w", ...)`
truncates the file in place, then `json.dump` writes the text.  There is no
temporary file and no rename in the source. -/
def saveSeenItemsOps (serialized : String) : List FsOp :=
  [FsOp.truncate, FsOp.write serialized]

/-- All file states reachable if the process crashes before, between, or
after the operations (every prefix of the trace applied to the initial
state). -/
def fsStates (file : Option String) (ops : List FsOp) : List (Option String) :=
  ops.scanl applyFsOp file

/-- Per-source configuration as consumed by `main.create_scrapers` and
`BaseScraper.__init__`; each field is optional because the JSON config may
omit it. -/
structure SourceConfig where
  enabled : Option Bool
  keywords : Option (List String)
  min_price : Option Nat
deriving DecidableEq

/-- `main.create_scrapers`: a Yahoo scraper is constructed iff `'yahoo' in
config and config['yahoo'].get('enabled', False)` — the key must be present
and the `enabled` field present and truthy, the orchestration-layer default
being `False`. -/
def create_scrapers (yahooCfg : Option SourceConfig) : List SourceConfig :=
  match yahooCfg with
  | none => []
  | some c => if c.enabled.getD false then [c] else []

/-! ### Helper lemmas -/

/-- Membership in the filtered list is exactly the source's nested condition:
in the input, resolvable id, id unseen, non-zero price, price at least
`min_price`. -/
theorem mem_filter_new_items {min_price : Nat} {items : List Item}
    {seen : Finset String} {item : Item} :
    item ∈ filter_new_items min_price items seen ↔
      item ∈ items ∧ get_item_id item ≠ "" ∧ get_item_id item ∉ seen ∧
        get_price item ≠ 0 ∧ min_price ≤ get_price item := by
  simp [filter_new_items, newItemCond, List.mem_filter, and_assoc]

theorem filter_new_items_sublist (min_price : Nat) (items : List Item)
    (seen : Finset String) :
    List.Sublist (filter_new_items min_price items seen) items :=
  List.filter_sublist items

theorem addIds_cons (seen : Finset String) (a : Item) (rest : List Item) :
    addIds seen (a :: rest) =
      addIds (if get_item_id a ≠ "" then insert (get_item_id a) seen else seen) rest :=
  rfl

/-- The recording fold adds exactly the resolvable ids of the list. -/
theorem addIds_eq (items : List Item) :
    ∀ seen : Finset String, addIds seen items = seen ∪ (resolvedIds items).toFinset := by
  induction items with
  | nil => intro seen; simp [addIds, resolvedIds]
  | cons a rest ih =>
    intro seen
    rw [addIds_cons]
    by_cases h : get_item_id a ≠ ""
    · rw [if_pos h, ih]
      have hres : resolvedIds (a :: rest) = get_item_id a :: resolvedIds rest := by
        simp [resolvedIds, h]
      rw [hres]
      ext x
      simp [Finset.mem_union, Finset.mem_insert, List.mem_toFinset]
    · rw [if_neg h, ih]
      push_neg at h
      have hres : resolvedIds (a :: rest) = resolvedIds rest := by
        simp [resolvedIds, h]
      rw [hres]

theorem subset_addIds (seen : Finset String) (items : List Item) :
    seen ⊆ addIds seen items := by
  rw [addIds_eq]
  exact Finset.subset_union_left

theorem mem_addIds_of_mem {seen : Finset String} {items : List Item} {item : Item}
    (hmem : item ∈ items) (hid : get_item_id item ≠ "") :
    get_item_id item ∈ addIds seen items := by
  rw [addIds_eq]
  apply Finset.mem_union_right
  rw [List.mem_toFinset]
  simp only [resolvedIds, List.mem_filterMap]
  exact ⟨item, hmem, by simp [hid]⟩

theorem runKeyword_notified_empty (deliver : Item → Bool) (min_price : Nat)
    (items : List Item) :
    (runKeyword deliver min_price items ∅).notified = [] := by
  simp [runKeyword]

theorem runKeyword_notified_of_ne (deliver : Item → Bool) (min_price : Nat)
    (items : List Item) {seen : Finset String} (h : seen ≠ ∅) :
    (runKeyword deliver min_price items seen).notified =
      (filter_new_items min_price items seen).map (fun item => (item, deliver item)) := by
  simp [runKeyword, h]

theorem runKeyword_seenAfter_empty (deliver : Item → Bool) (min_price : Nat)
    (items : List Item) :
    (runKeyword deliver min_price items ∅).seenAfter = addIds ∅ items := by
  simp [runKeyword]

theorem runKeyword_seenAfter_of_ne (deliver : Item → Bool) (min_price : Nat)
    (items : List Item) {seen : Finset String} (h : seen ≠ ∅) :
    (runKeyword deliver min_price items seen).seenAfter =
      addIds seen (filter_new_items min_price items seen) := by
  simp [runKeyword, h]

/-- Every item handed to `notify` in a pass had an id not in the seen-set at
the start of that pass. -/
theorem notified_id_not_seen (deliver : Item → Bool) (min_price : Nat)
    (items : List Item) (seen : Finset String) :
    ∀ p ∈ (runKeyword deliver min_price items seen).notified,
      get_item_id p.1 ∉ seen := by
  by_cases h : seen = ∅
  · subst h
    simp [runKeyword_notified_empty]
  · intro p hp
    rw [runKeyword_notified_of_ne deliver min_price items h] at hp
    rw [List.mem_map] at hp
    obtain ⟨item, hmem, hpe⟩ := hp
    have hns := (mem_filter_new_items.mp hmem).2.2.1
    rw [← hpe]
    exact hns

/-- The seen-set only grows across a pass. -/
theorem seen_subset_runKeyword (deliver : Item → Bool) (min_price : Nat)
    (items : List Item) (seen : Finset String) :
    seen ⊆ (runKeyword deliver min_price items seen).seenAfter := by
  by_cases h : seen = ∅
  · subst h
    rw [runKeyword_seenAfter_empty]
    exact subset_addIds ∅ items
  · rw [runKeyword_seenAfter_of_ne deliver min_price items h]
    exact subset_addIds seen (filter_new_items min_price items seen)

theorem runPasses_nil (deliver : Item → Bool) (min_price : Nat) (seen : Finset String) :
    runPasses deliver min_price [] seen = ([], seen) :=
  rfl

theorem runPasses_cons (deliver : Item → Bool) (min_price : Nat) (items : List Item)
    (rest : List (List Item)) (seen : Finset String) :
    runPasses deliver min_price (items :: rest) seen =
      ((runKeyword deliver min_price items seen).notified ::
          (runPasses deliver min_price rest
            (runKeyword deliver min_price items seen).seenAfter).1,
        (runPasses deliver min_price rest
          (runKeyword deliver min_price items seen).seenAfter).2) :=
  rfl

theorem runSource_nil (search : String → Except String (List Item))
    (deliver : Item → Bool) (min_price : Nat) (store : String → Finset String) :
    runSource search deliver min_price [] store = ([], store) :=
  rfl

theorem runSource_cons_error (search : String → Except String (List Item))
    (deliver : Item → Bool) (min_price : Nat) (rest : List String) (kw : String)
    (store : String → Finset String) (e : String) (h : search kw = Except.error e) :
    runSource search deliver min_price (kw :: rest) store =
      runSource search deliver min_price rest store := by
  simp [runSource, h]

theorem runSource_cons_ok (search : String → Except String (List Item))
    (deliver : Item → Bool) (min_price : Nat) (rest : List String) (kw : String)
    (store : String → Finset String) (items : List Item)
    (h : search kw = Except.ok items) :
    runSource search deliver min_price (kw :: rest) store =
      ((kw, (runKeyword deliver min_price items (store kw)).notified) ::
          (runSource search deliver min_price rest
            (fun k => if k = kw
              then (runKeyword deliver min_price items (store kw)).seenAfter
              else store k)).1,
        (runSource search deliver min_price rest
          (fun k => if k = kw
            then (runKeyword deliver min_price items (store kw)).seenAfter
            else store k)).2) := by
  simp [runSource, h]

/-! ### Concrete inputs for witnesses and counterexamples -/

def itemA : Item := ⟨"A", "Cam1", 100, "u1"⟩

def itemA0 : Item := ⟨"A", "Cam1", 0, "u1"⟩

def itemB : Item := ⟨"B", "Cam2", 50, "u2"⟩

def seenA : Finset String := {"A"}

def seenB : Finset String := {"B"}

/-- A search function failing exactly on the keyword "bad". -/
def searchBad : String → Except String (List Item) :=
  fun k => if k = "bad" then Except.error "boom" else Except.ok []

/-- A config with every optional field absent except keywords and price. -/
def cfgNoEnabled : SourceConfig := ⟨none, some ["camera"], some 0⟩

/-! ### Claims -/

/-- Claim C1, counterexample: in incremental mode (seen-set the singleton
"B"), a fresh list holding the same unseen id "A" twice makes the pass
notify id "A" twice — `filter_new_items` checks each occurrence against the
unmodified seen-set, and the notify loop does not re-check.  This refutes
"no single item id is ever notified more than once in total, including when
the same id occurs more than once within one fresh-item list of one pass". -/
theorem duplicate_id_notified_twice_in_one_pass :
    ((runKeyword (fun _ => true) 0 [itemA, itemA] seenB).notified.countP
      (fun p => get_item_id p.1 == "A")) = 2 := by decide

/-- Claim C1, amended: across passes, dedup is monotone — once an id is in
the seen-set, no later pass (the seen-set threaded pass to pass, as by a
correctly round-tripping store) notifies any item bearing that id; within a
single pass, however, an id occurring several times in one fresh list is
notified once per qualifying occurrence. -/
theorem dedup_monotone_across_passes (deliver : Item → Bool) (min_price : Nat)
    (passes : List (List Item)) (seen : Finset String) (idv : String)
    (h : idv ∈ seen) :
    ∀ log ∈ (runPasses deliver min_price passes seen).1, ∀ p ∈ log,
      get_item_id p.1 ≠ idv := by
  induction passes generalizing seen with
  | nil =>
    intro log hlog
    rw [runPasses_nil] at hlog
    simp at hlog
  | cons items rest ih =>
    intro log hlog
    rw [runPasses_cons] at hlog
    rw [List.mem_cons] at hlog
    cases hlog with
    | inl hl =>
      subst hl
      intro p hp heq
      exact notified_id_not_seen deliver min_price items seen p hp (heq ▸ h)
    | inr hr =>
      exact ih _ (seen_subset_runKeyword deliver min_price items seen h) log hr

theorem dedup_monotone_across_passes_witness :
    "A" ∈ seenA ∧
      (∀ log ∈ (runPasses (fun _ => true) 0 [[itemA]] seenA).1, ∀ p ∈ log,
        get_item_id p.1 ≠ "A") :=
  ⟨by decide, dedup_monotone_across_passes (fun _ => true) 0 [[itemA]] seenA "A" (by decide)⟩

/-- Claim C2, counterexample: in incremental mode with `min_price = 0`, an
item with unresolvable price (0) and an unseen resolvable id is NOT a
candidate — `if price and price >= self.min_price` rejects a zero price
outright — refuting "a candidate iff its id is not in seen_set and price ≥
min_price; an unresolvable price is a candidate whenever min_price is 0". -/
theorem zero_price_excluded_at_zero_min_price :
    seenB ≠ ∅ ∧ get_item_id itemA0 ≠ "" ∧ get_item_id itemA0 ∉ seenB ∧
      get_price itemA0 = 0 ∧
      filter_new_items 0 [itemA0] seenB = [] ∧
      (runKeyword (fun _ => true) 0 [itemA0] seenB).notified = [] := by decide

/-- Claim C2, amended: for a fresh item with a resolvable non-empty id, the
item is a notification candidate iff its id is not in seen_set AND its price
is non-zero AND its price is ≥ min_price; an item whose price is
unresolvable (defaulting to 0) is always excluded, even when min_price is
0. -/
theorem incremental_candidate_characterization (min_price : Nat)
    (items : List Item) (seen : Finset String) (item : Item) (_hseen : seen ≠ ∅)
    (hid : get_item_id item ≠ "") :
    item ∈ filter_new_items min_price items seen ↔
      item ∈ items ∧ get_item_id item ∉ seen ∧
        get_price item ≠ 0 ∧ min_price ≤ get_price item := by
  rw [mem_filter_new_items]
  tauto

theorem incremental_candidate_characterization_witness :
    seenB ≠ ∅ ∧ get_item_id itemA ≠ "" ∧
      (itemA ∈ filter_new_items 0 [itemA] seenB ↔
        itemA ∈ [itemA] ∧ get_item_id itemA ∉ seenB ∧
          get_price itemA ≠ 0 ∧ 0 ≤ get_price itemA) :=
  ⟨by decide, by decide,
    incremental_candidate_characterization 0 [itemA] seenB itemA (by decide) (by decide)⟩

/-- Claim C3: with an empty seen-set at call time (bootstrap), the pass
notifies nothing and afterwards the seen-set is exactly the set of
resolvable non-empty ids of the fresh items. -/
theorem bootstrap_no_notify_and_exact_ids (deliver : Item → Bool)
    (min_price : Nat) (items : List Item) :
    (runKeyword deliver min_price items ∅).notified = [] ∧
      (runKeyword deliver min_price items ∅).seenAfter =
        (resolvedIds items).toFinset := by
  refine ⟨runKeyword_notified_empty deliver min_price items, ?_⟩
  rw [runKeyword_seenAfter_empty, addIds_eq]
  simp

/-- Claim C4: an item whose resolved id is already in the seen-set never
appears in the list returned by `filter_new_items`, for every items list,
seen-set and min_price, regardless of the item's price. -/
theorem seen_id_never_notified (min_price : Nat) (items : List Item)
    (seen : Finset String) (item : Item) (h : get_item_id item ∈ seen) :
    item ∉ filter_new_items min_price items seen := by
  intro hmem
  exact (mem_filter_new_items.mp hmem).2.2.1 h

theorem seen_id_never_notified_witness :
    get_item_id itemB ∈ seenB ∧ itemB ∉ filter_new_items 0 [itemB] seenB :=
  ⟨by decide, seen_id_never_notified 0 [itemB] seenB itemB (by decide)⟩

/-- Claim C5: the per-keyword try/except of `BaseScraper.run` isolates
faults — if the adapter's search raises for one keyword, processing the
keyword list gives exactly the notify logs and store updates it would give
with that keyword absent; the failure aborts neither the pass nor the
process. -/
theorem keyword_fault_isolation (search : String → Except String (List Item))
    (deliver : Item → Bool) (min_price : Nat) (ks1 ks2 : List String)
    (kw : String) (store : String → Finset String) (e : String)
    (h : search kw = Except.error e) :
    runSource search deliver min_price (ks1 ++ kw :: ks2) store =
      runSource search deliver min_price (ks1 ++ ks2) store := by
  induction ks1 generalizing store with
  | nil =>
    rw [List.nil_append, List.nil_append]
    exact runSource_cons_error search deliver min_price ks2 kw store e h
  | cons a t ih =>
    rw [List.cons_append, List.cons_append]
    cases hsa : search a with
    | error e2 =>
      rw [runSource_cons_error search deliver min_price _ a store e2 hsa,
        runSource_cons_error search deliver min_price _ a store e2 hsa]
      exact ih store
    | ok items =>
      rw [runSource_cons_ok search deliver min_price _ a store items hsa,
        runSource_cons_ok search deliver min_price _ a store items hsa, ih]

theorem keyword_fault_isolation_witness :
    searchBad "bad" = Except.error "boom" ∧
      runSource searchBad (fun _ => true) 0 (["first"] ++ "bad" :: ["third"])
          (fun _ => ∅) =
        runSource searchBad (fun _ => true) 0 (["first"] ++ ["third"])
          (fun _ => ∅) :=
  ⟨rfl, keyword_fault_isolation searchBad (fun _ => true) 0 ["first"] ["third"]
    "bad" (fun _ => ∅) "boom" rfl⟩

/-- Claim C6: every notify candidate's id lands in the keyword's seen-set
after the pass for every delivery-outcome function (the run loop ignores the
outcome; `notify` swallows delivery errors), so a failed delivery never
causes a repeat notification for that id on any later pass. -/
theorem notify_marks_seen_regardless_of_delivery (deliver : Item → Bool)
    (min_price : Nat) (items : List Item) (seen : Finset String) (item : Item)
    (hseen : seen ≠ ∅) (h : item ∈ filter_new_items min_price items seen) :
    get_item_id item ∈ (runKeyword deliver min_price items seen).seenAfter ∧
      ∀ (deliver2 : Item → Bool) (items2 : List Item),
        ∀ p ∈ (runKeyword deliver2 min_price items2
            (runKeyword deliver min_price items seen).seenAfter).notified,
          get_item_id p.1 ≠ get_item_id item := by
  have hid : get_item_id item ≠ "" := (mem_filter_new_items.mp h).2.1
  have hmem : get_item_id item ∈ (runKeyword deliver min_price items seen).seenAfter := by
    rw [runKeyword_seenAfter_of_ne deliver min_price items hseen]
    exact mem_addIds_of_mem h hid
  refine ⟨hmem, ?_⟩
  intro deliver2 items2 p hp heq
  exact notified_id_not_seen deliver2 min_price items2 _ p hp (heq ▸ hmem)

theorem notify_marks_seen_regardless_of_delivery_witness :
    seenB ≠ ∅ ∧ itemA ∈ filter_new_items 0 [itemA] seenB ∧
      (get_item_id itemA ∈ (runKeyword (fun _ => false) 0 [itemA] seenB).seenAfter ∧
        ∀ (deliver2 : Item → Bool) (items2 : List Item),
          ∀ p ∈ (runKeyword deliver2 0 items2
              (runKeyword (fun _ => false) 0 [itemA] seenB).seenAfter).notified,
            get_item_id p.1 ≠ get_item_id itemA) :=
  ⟨by decide, by decide,
    notify_marks_seen_regardless_of_delivery (fun _ => false) 0 [itemA] seenB
      itemA (by decide) (by decide)⟩

/-- Claim C7: `_load_seen_items` yields the empty mapping when the history
file is missing and on any read/parse failure, and a keyword absent from a
well-formed file gets an empty set on first access via
`_get_seen_items_for_keyword`. -/
theorem load_degrades_to_empty (data : List (String × List String))
    (kw : String)
    (h : (loadSeenItems (HistoryFile.wellFormed data)).lookup kw = none) :
    loadSeenItems HistoryFile.missing = [] ∧
      loadSeenItems HistoryFile.corrupt = [] ∧
      (getSeenForKeyword (loadSeenItems (HistoryFile.wellFormed data)) kw).1 = ∅ := by
  refine ⟨rfl, rfl, ?_⟩
  simp [getSeenForKeyword, h]

theorem load_degrades_to_empty_witness :
    (loadSeenItems (HistoryFile.wellFormed [("x", ["a"])])).lookup "y" = none ∧
      (loadSeenItems HistoryFile.missing = [] ∧
        loadSeenItems HistoryFile.corrupt = [] ∧
        (getSeenForKeyword
          (loadSeenItems (HistoryFile.wellFormed [("x", ["a"])])) "y").1 = ∅) :=
  ⟨by decide, load_degrades_to_empty [("x", ["a"])] "y" (by decide)⟩

/-- Claim C8: `_save_seen_items` truncates the history file in place
(`open(..., "w")`) and then writes — no temporary file, no rename — so a
crash between the truncation and the write leaves the file empty: a state
that is neither the old complete state nor the new complete state, contrary
to the claimed atomicity. -/
theorem save_truncate_exposes_partial_state :
    some "" ∈ fsStates (some "oldjson") (saveSeenItemsOps "newjson") ∧
      (some "" : Option String) ≠ some "oldjson" ∧
      (some "" : Option String) ≠ some "newjson" := by decide

/-- Claim C9: `create_scrapers` constructs a scraper only when
`config['yahoo'].get('enabled', False)` is truthy, so a source whose config
omits the `enabled` field is never constructed or run; likewise when the
source key is absent entirely. -/
theorem absent_enabled_field_source_disabled (c : SourceConfig)
    (h : c.enabled = none) :
    create_scrapers (some c) = [] ∧ create_scrapers none = [] := by
  refine ⟨?_, rfl⟩
  simp [create_scrapers, h]

theorem absent_enabled_field_source_disabled_witness :
    cfgNoEnabled.enabled = none ∧
      (create_scrapers (some cfgNoEnabled) = [] ∧ create_scrapers none = []) :=
  ⟨rfl, absent_enabled_field_source_disabled cfgNoEnabled rfl⟩

/-- Claim C10: `filter_new_items` performs no mutation of the seen-set (its
embedding is a pure function of the items and the set) and returns an
order-preserving sublist of its input; the ids inserted during an
incremental pass are exactly the resolvable ids of the filter's output,
inserted by the surrounding run loop after each per-item notify attempt. -/
theorem filter_pure_sublist_and_run_loop_inserts (deliver : Item → Bool)
    (min_price : Nat) (items : List Item) (seen : Finset String)
    (h : seen ≠ ∅) :
    List.Sublist (filter_new_items min_price items seen) items ∧
      (runKeyword deliver min_price items seen).seenAfter =
        seen ∪ (resolvedIds (filter_new_items min_price items seen)).toFinset := by
  refine ⟨filter_new_items_sublist min_price items seen, ?_⟩
  rw [runKeyword_seenAfter_of_ne deliver min_price items h, addIds_eq]

theorem filter_pure_sublist_and_run_loop_inserts_witness :
    seenB ≠ ∅ ∧
      (List.Sublist (filter_new_items 0 [itemA] seenB) [itemA] ∧
        (runKeyword (fun _ => true) 0 [itemA] seenB).seenAfter =
          seenB ∪ (resolvedIds (filter_new_items 0 [itemA] seenB)).toFinset) :=
  ⟨by decide,
    filter_pure_sublist_and_run_loop_inserts (fun _ => true) 0 [itemA] seenB (by decide)⟩

end ResaleRadar
